import Mathlib

/-!
Verification of the client-side TTL cache layer of the situation-monitor
repository (`src/lib/utils/cache.ts`) and the daily cache key computed by
`fetchYieldCurve` (`src/lib/api/treasury.ts`).

The embedding is shallow:
* `localStorage` is modelled as an association list from full key strings to
  stored records (`Storage`), with `getItem` / `setItem` / `removeItem`
  mirroring the storage primitives used by the source.
* A stored record (`Stored`) is either a well-formed serialized `CacheItem`
  (numeric `timestamp` and `ttl` fields, optional `data` field — note
  `JSON.stringify` drops an `undefined` data field), a record that parses as
  JSON but whose `timestamp`/`ttl` are not numbers (so the age arithmetic in
  the source produces `NaN` and every comparison on it is false), a non-empty
  record that `JSON.parse` rejects, or the empty string (which is falsy, so
  the source's `if (!stored)` / `if (stored)` guards treat it specially).
* Timestamps and TTLs are integers (milliseconds); `Date.now()` is passed in
  as an explicit `now` parameter.
* JSON-serializable values are the inductive `Json`; JavaScript truthiness of
  such a value is `Json.truthy` (`JSON.parse` can never yield `NaN` or `-0`,
  so the integer model of numbers is adequate for the truthiness test).
* Storage writes are modelled as succeeding: the `try`/`catch` around
  `localStorage.setItem` in `LocalCache.set` only logs on failure.
-/

/-- JSON-serializable values: the payload type `T` stored by the cache. -/
inductive Json where
  | null
  | bool (b : Bool)
  | num (n : Int)
  | str (s : String)
  | arr (elems : List Json)
  | obj (fields : List (String × Json))

/-- JavaScript truthiness of a JSON value: `null`, `false`, `0` and the empty
string are falsy; every array and object is truthy. This is the test the
source applies in `if (cached) return cached;`. -/
def Json.truthy : Json → Bool
  | .null => false
  | .bool b => b
  | .num n => n != 0
  | .str s => s != ""
  | .arr _ => true
  | .obj _ => true

/-- A record stored under a key in `localStorage`, as seen by the cache:
* `entry data timestamp ttl` — the string parses to an object with numeric
  `timestamp` and `ttl`; `data` is the (possibly missing) `data` field;
* `badTimes data` — the string parses as JSON but `timestamp` or `ttl` is not
  a number, so `now - item.timestamp` is `NaN` and both `age > item.ttl` and
  `Date.now() - item.timestamp <= item.ttl` evaluate to false;
* `badJson` — a non-empty string rejected by `JSON.parse` (it throws);
* `empty` — the empty string, which is falsy. -/
inductive Stored where
  | entry (data : Option Json) (timestamp : Int) (ttl : Int)
  | badTimes (data : Option Json)
  | badJson
  | empty

/-- The browser `localStorage`: an association list from full (prefixed) key
strings to stored records, keys unique by construction of the operations. -/
abbrev Storage := List (String × Stored)

/-- Model of `localStorage.getItem`. -/
def getItem (k : String) : Storage → Option Stored
  | [] => none
  | (k₀, v₀) :: rest => if k₀ = k then some v₀ else getItem k rest

/-- Model of `localStorage.setItem`: replace in place if the key exists,
otherwise append. -/
def setItem (k : String) (v : Stored) : Storage → Storage
  | [] => [(k, v)]
  | (k₀, v₀) :: rest => if k₀ = k then (k, v) :: rest else (k₀, v₀) :: setItem k v rest

/-- Model of `localStorage.removeItem`. -/
def removeItem (k : String) : Storage → Storage
  | [] => []
  | (k₀, v₀) :: rest => if k₀ = k then removeItem k rest else (k₀, v₀) :: removeItem k rest

/-- The `LocalCache.PREFIX` constant `'sm_cache_'`. -/
def PREF : String := "sm_cache_"

/-- Model of `key.startsWith(p)` (character-list prefix test). -/
def startsWith (s p : String) : Bool := p.data.isPrefixOf s.data

/-- Model of `LocalCache.set`: store `{data, timestamp: Date.now(), ttl:
ttlMinutes * 60 * 1000}` under the prefixed key. The surrounding
`try`/`catch` only logs, so the write is modelled as succeeding. -/
def LocalCache.set (key : String) (data : Json) (ttlMinutes : Int) (now : Int)
    (st : Storage) : Storage :=
  setItem (PREF ++ key) (.entry (some data) now (ttlMinutes * 60 * 1000)) st

/-- Model of `LocalCache.get`: returns the retrieved value (JavaScript
`null`/`undefined` both mapped to `none`) together with the resulting
storage. Branches, in source order:
* no record, or the empty string: `if (!stored) return null`;
* `JSON.parse` throws: the `catch` returns `null` (no removal);
* non-numeric `timestamp`/`ttl`: `age` is `NaN`, `age > item.ttl` is false,
  so the code falls through and returns `item.data`;
* well-formed entry: expired (`age > ttl`) removes the record and returns
  `null`, otherwise returns `item.data`. -/
def LocalCache.get (key : String) (now : Int) (st : Storage) :
    Option Json × Storage :=
  match getItem (PREF ++ key) st with
  | none => (none, st)
  | some .empty => (none, st)
  | some .badJson => (none, st)
  | some (.badTimes d) => (d, st)
  | some (.entry d ts tl) =>
      if now - ts > tl then (none, removeItem (PREF ++ key) st)
      else (d, st)

/-- Model of `LocalCache.remove`. -/
def LocalCache.remove (key : String) (st : Storage) : Storage :=
  removeItem (PREF ++ key) st

/-- The `keysToRemove` array built by the loop in `LocalCache.clearAll`: the
keys of every storage entry carrying the namespace prefix. -/
def keysToRemove (st : Storage) : List String :=
  (st.filter (fun e => startsWith e.1 PREF)).map Prod.fst

/-- Model of `LocalCache.clearAll`: collect every key carrying the namespace
prefix, remove each collected key, and report the count (the source logs
`keysToRemove.length`). -/
def LocalCache.clearAll (st : Storage) : Storage × Nat :=
  ((keysToRemove st).foldl (fun acc k => removeItem k acc) st,
   (keysToRemove st).length)

/-- Classification of one prefixed record by the body of the `getStats` loop:
the empty string fails `if (stored)` and is skipped; a parse failure lands in
the `catch` and counts as expired; non-numeric times make
`Date.now() - item.timestamp <= item.ttl` false (NaN), so expired; a
well-formed entry is valid exactly when `now - timestamp <= ttl`. -/
def statsClass (now : Int) : Stored → Bool × Bool
  | .empty => (false, false)
  | .badJson => (false, true)
  | .badTimes _ => (false, true)
  | .entry _ ts tl => if now - ts ≤ tl then (true, false) else (false, true)

/-- The record returned by `LocalCache.getStats`. -/
structure CacheStats where
  total : Nat
  valid : Nat
  expired : Nat
deriving DecidableEq, Repr

/-- Model of `LocalCache.getStats`: walk the whole storage; every key with
the namespace prefix increments `total`, and its record increments `valid`
or `expired` (or neither, for the empty string) per `statsClass`. -/
def LocalCache.getStats (now : Int) (st : Storage) : CacheStats :=
  st.foldl
    (fun acc e =>
      if startsWith e.1 PREF then
        { total := acc.total + 1,
          valid := acc.valid + (if (statsClass now e.2).1 then 1 else 0),
          expired := acc.expired + (if (statsClass now e.2).2 then 1 else 0) }
      else acc)
    ⟨0, 0, 0⟩

/-- State threaded through `fetchWithCache`: the storage plus the number of
producer (`fetchFn`) invocations made so far, used to express the
"producer invoked exactly once" parts of the spec. -/
structure FetchState where
  store : Storage
  calls : Nat

/-- The `const data = await fetchFn(); LocalCache.set(cacheKey, data,
ttlMinutes); return data;` sequence of `fetchWithCache`, shared by the
force-refresh branch and the cache-miss path. The producer is modelled as a
function from the invocation index to a result; a thrown error is `.error`
and propagates with no cache write. -/
def fetchAndStore (cacheKey : String) (fetchFn : Nat → Except String Json)
    (ttlMinutes : Int) (now : Int) (st : Storage) (calls : Nat) :
    Except String Json × FetchState :=
  match fetchFn calls with
  | .error e => (.error e, ⟨st, calls + 1⟩)
  | .ok data => (.ok data, ⟨LocalCache.set cacheKey data ttlMinutes now st, calls + 1⟩)

/-- Model of `fetchWithCache`: on force-refresh, fetch and store without
consulting the cache; otherwise look up the cache and return the cached
value when it is truthy (`if (cached) return cached;`), else fetch and
store. -/
def fetchWithCache (cacheKey : String) (fetchFn : Nat → Except String Json)
    (ttlMinutes : Int) (forceRefresh : Bool) (now : Int) (s : FetchState) :
    Except String Json × FetchState :=
  if forceRefresh then
    fetchAndStore cacheKey fetchFn ttlMinutes now s.store s.calls
  else
    match LocalCache.get cacheKey now s.store with
    | (some cached, st₁) =>
        if cached.truthy then (.ok cached, ⟨st₁, s.calls⟩)
        else fetchAndStore cacheKey fetchFn ttlMinutes now st₁ s.calls
    | (none, st₁) => fetchAndStore cacheKey fetchFn ttlMinutes now st₁ s.calls

/-- The cache-hit condition of `fetchWithCache`'s non-forced path: the lookup
yields a value and that value is truthy (`if (cached) return cached;`). -/
def cacheHit (key : String) (now : Int) (st : Storage) : Bool :=
  match (LocalCache.get key now st).1 with
  | some v => v.truthy
  | none => false

/-- A stored record whose content is not a well-formed serialized
`CacheItem` (the expected entry shape). -/
def isMalformed : Stored → Bool
  | .entry _ _ _ => false
  | _ => true

/-- The empty-string record, which `if (stored)` in `getStats` skips. -/
def isEmptyRec : Stored → Bool
  | .empty => true
  | _ => false

/-- The `CACHE_CONFIG.TREASURY_YIELDS.key` constant. -/
def TREASURY_YIELDS_key : String := "treasury_yields_daily"

/-- The `CACHE_CONFIG.TREASURY_YIELDS.ttl` constant (minutes). -/
def TREASURY_YIELDS_ttl : Int := 60

/-- A calendar date as rendered by `toISOString` (UTC). -/
structure CalDate where
  year : Nat
  month : Nat
  day : Nat
deriving DecidableEq, Repr

/-- The ASCII digit character for `n < 10`. -/
def digitChar (n : Nat) : Char := Char.ofNat (48 + n)

/-- Two-digit zero-padded rendering, as in the `MM` / `DD` fields of
`toISOString`. -/
def pad2 (n : Nat) : List Char := [digitChar (n / 10), digitChar (n % 10)]

/-- Four-digit zero-padded rendering, as in the `YYYY` field of
`toISOString`. -/
def pad4 (n : Nat) : List Char :=
  [digitChar (n / 1000), digitChar (n / 100 % 10), digitChar (n / 10 % 10),
   digitChar (n % 10)]

/-- Model of `new Date().toISOString().split('T')[0]`: the `YYYY-MM-DD` date
part of the ISO-8601 rendering of the current instant. -/
def isoDateString (d : CalDate) : String :=
  ⟨pad4 d.year ++ '-' :: (pad2 d.month ++ '-' :: pad2 d.day)⟩

/-- The daily cache key computed by `fetchYieldCurve`:
`` `${CACHE_CONFIG.TREASURY_YIELDS.key}_${today}` ``. It depends only on the
calendar date, not on the time of day or on any TTL. -/
def treasuryDailyKey (d : CalDate) : String :=
  TREASURY_YIELDS_key ++ "_" ++ isoDateString d

/-! ### Storage primitive lemmas -/

theorem getItem_setItem_self (k : String) (v : Stored) (st : Storage) :
    getItem k (setItem k v st) = some v := by
  induction st with
  | nil => simp [getItem, setItem]
  | cons e rest ih =>
      obtain ⟨k₀, v₀⟩ := e
      by_cases h : k₀ = k
      · simp [getItem, setItem, h]
      · simp [getItem, setItem, h, ih]

theorem getItem_setItem_ne (k k₀ : String) (v : Stored) (st : Storage)
    (h : k₀ ≠ k) : getItem k₀ (setItem k v st) = getItem k₀ st := by
  induction st with
  | nil => simp [getItem, setItem, Ne.symm h]
  | cons e rest ih =>
      obtain ⟨k₁, v₁⟩ := e
      simp only [setItem]
      by_cases h₁ : k₁ = k
      · rw [if_pos h₁]
        simp [getItem, Ne.symm h, h₁]
      · rw [if_neg h₁]
        simp [getItem, ih]

theorem getItem_removeItem (k k₀ : String) (st : Storage) :
    getItem k₀ (removeItem k st) = if k₀ = k then none else getItem k₀ st := by
  induction st with
  | nil => simp [getItem, removeItem]
  | cons e rest ih =>
      obtain ⟨k₁, v₁⟩ := e
      simp only [removeItem]
      by_cases h₁ : k₁ = k
      · rw [if_pos h₁]
        rw [ih]
        by_cases h₂ : k₀ = k
        · simp [h₂]
        · simp [getItem, h₂, h₁, Ne.symm h₂]
      · rw [if_neg h₁]
        by_cases h₂ : k₀ = k
        · subst h₂
          simp [getItem, h₁, ih]
        · simp [getItem, ih, h₂]

/-! ### `LocalCache.get` behaviour lemmas -/

theorem get_of_missing (key : String) (now : Int) (st : Storage)
    (h : getItem (PREF ++ key) st = none) :
    LocalCache.get key now st = (none, st) := by
  simp [LocalCache.get, h]

theorem get_of_entry_valid (key : String) (now : Int) (st : Storage)
    (d : Option Json) (ts tl : Int)
    (h : getItem (PREF ++ key) st = some (.entry d ts tl))
    (hv : now - ts ≤ tl) :
    LocalCache.get key now st = (d, st) := by
  simp [LocalCache.get, h, not_lt.mpr hv]

theorem get_of_entry_expired (key : String) (now : Int) (st : Storage)
    (d : Option Json) (ts tl : Int)
    (h : getItem (PREF ++ key) st = some (.entry d ts tl))
    (hx : tl < now - ts) :
    LocalCache.get key now st = (none, removeItem (PREF ++ key) st) := by
  simp [LocalCache.get, h, hx]

/-- The lookup either leaves storage untouched or (lazy expiry) removes the
record under the looked-up key. -/
theorem get_snd_cases (key : String) (now : Int) (st : Storage) :
    (LocalCache.get key now st).2 = st ∨
      (LocalCache.get key now st).2 = removeItem (PREF ++ key) st := by
  unfold LocalCache.get
  match h : getItem (PREF ++ key) st with
  | none => simp
  | some .empty => simp
  | some .badJson => simp
  | some (.badTimes d) => simp
  | some (.entry d ts tl) =>
      by_cases hx : now - ts > tl <;> simp [hx]

/-- Keys other than the looked-up one are untouched by `LocalCache.get`. -/
theorem get_preserves_other_keys (key k₀ : String) (now : Int) (st : Storage)
    (h : k₀ ≠ PREF ++ key) :
    getItem k₀ (LocalCache.get key now st).2 = getItem k₀ st := by
  rcases get_snd_cases key now st with h₂ | h₂ <;> rw [h₂]
  rw [getItem_removeItem, if_neg h]

/-- When the lookup produces a value, storage is unchanged. -/
theorem get_some_snd (key : String) (now : Int) (st : Storage) (v : Json)
    (h : (LocalCache.get key now st).1 = some v) :
    (LocalCache.get key now st).2 = st := by
  unfold LocalCache.get at *
  match hg : getItem (PREF ++ key) st with
  | none => simp
  | some .empty => simp
  | some .badJson => simp
  | some (.badTimes d) => simp
  | some (.entry d ts tl) =>
      by_cases hx : now - ts > tl
      · rw [hg] at h; simp [hx] at h
      · simp [hg, hx]

/-! ### `fetchWithCache` behaviour lemmas -/

theorem fetchAndStore_ok (cacheKey : String) (f : Nat → Except String Json)
    (ttlMinutes now : Int) (st : Storage) (calls : Nat) (d : Json)
    (hf : f calls = .ok d) :
    fetchAndStore cacheKey f ttlMinutes now st calls
      = (.ok d, ⟨LocalCache.set cacheKey d ttlMinutes now st, calls + 1⟩) := by
  simp [fetchAndStore, hf]

theorem fetchAndStore_error (cacheKey : String) (f : Nat → Except String Json)
    (ttlMinutes now : Int) (st : Storage) (calls : Nat) (e : String)
    (hf : f calls = .error e) :
    fetchAndStore cacheKey f ttlMinutes now st calls = (.error e, ⟨st, calls + 1⟩) := by
  simp [fetchAndStore, hf]

/-- A non-forced call finding a valid entry whose value is truthy returns the
cached value and leaves the whole state (storage and call count) unchanged. -/
theorem fetchWithCache_hit (key : String) (f : Nat → Except String Json)
    (ttlMinutes now : Int) (s : FetchState) (d : Json) (ts tl : Int)
    (h : getItem (PREF ++ key) s.store = some (.entry (some d) ts tl))
    (hv : now - ts ≤ tl) (ht : d.truthy = true) :
    fetchWithCache key f ttlMinutes false now s = (.ok d, s) := by
  unfold fetchWithCache
  rw [get_of_entry_valid key now s.store (some d) ts tl h hv]
  simp [ht]

/-! ### Claim theorems -/

/-- Claim C2: for all keys `k`, JSON-serializable values `v` and
`ttlMinutes > 0`, immediately after `LocalCache.set(k, v, ttl)` (no clock
advance, no intervening operation), `LocalCache.get(k)` returns `v`. -/
theorem get_after_set (key : String) (v : Json) (ttlMinutes now : Int)
    (st : Storage) (h : 0 < ttlMinutes) :
    (LocalCache.get key now (LocalCache.set key v ttlMinutes now st)).1 = some v := by
  unfold LocalCache.set
  rw [get_of_entry_valid key now _ (some v) now (ttlMinutes * 60 * 1000)
    (getItem_setItem_self _ _ _) (by omega)]

/-- Witness for C2 at the concrete input of the spec scenario. -/
theorem get_after_set_witness :
    (LocalCache.get ("x") 0
        (LocalCache.set ("x") (Json.obj [(("n"), Json.num 1)]) 1 0 [])).1
      = some (Json.obj [(("n"), Json.num 1)]) :=
  get_after_set ("x") (Json.obj [(("n"), Json.num 1)]) 1 0 [] (by decide)

/-- Claim C3: an entry stored at `ts` with time-to-live `tl` is valid exactly
when `now - ts ≤ tl`; a `get` past that window returns absent and deletes the
record from storage as a side effect. -/
theorem get_validity_window (key : String) (d : Json) (ts tl now : Int)
    (st : Storage)
    (h : getItem (PREF ++ key) st = some (.entry (some d) ts tl)) :
    (now - ts ≤ tl → LocalCache.get key now st = (some d, st)) ∧
    (tl < now - ts →
      LocalCache.get key now st = (none, removeItem (PREF ++ key) st) ∧
      getItem (PREF ++ key) (LocalCache.get key now st).2 = none) := by
  refine ⟨fun hv => get_of_entry_valid key now st (some d) ts tl h hv, fun hx => ?_⟩
  have hg := get_of_entry_expired key now st (some d) ts tl h hx
  refine ⟨hg, ?_⟩
  rw [hg]
  simp [getItem_removeItem]

/-- Witness for C3: the spec scenario `set("x", {n:1}, ttlMinutes=1)` at
`t = 0`; `get` at `t = 30s` hits, `get` at `t = 61s` returns absent and the
record is deleted. -/
theorem get_validity_window_witness :
    LocalCache.get ("x") 30000
        (LocalCache.set ("x") (Json.obj [(("n"), Json.num 1)]) 1 0 [])
      = (some (Json.obj [(("n"), Json.num 1)]),
          LocalCache.set ("x") (Json.obj [(("n"), Json.num 1)]) 1 0 []) ∧
    LocalCache.get ("x") 61000
        (LocalCache.set ("x") (Json.obj [(("n"), Json.num 1)]) 1 0 [])
      = (none,
          removeItem (PREF ++ "x")
            (LocalCache.set ("x") (Json.obj [(("n"), Json.num 1)]) 1 0 [])) :=
  ⟨(get_validity_window ("x") (Json.obj [(("n"), Json.num 1)]) 0 60000 30000 _
      (by rfl)).1 (by decide),
   ((get_validity_window ("x") (Json.obj [(("n"), Json.num 1)]) 0 60000 61000 _
      (by rfl)).2 (by decide)).1⟩

/-- Claim C10: a non-forced `fetchWithCache` call answered from a valid
cached entry (the code's cache-hit condition: valid entry, truthy value)
leaves the state completely unchanged — the entry is not rewritten, its
timestamp is not refreshed (no sliding TTL), and the producer is not
invoked. -/
theorem cache_hit_leaves_state_unchanged (key : String)
    (f : Nat → Except String Json) (ttlMinutes now : Int) (s : FetchState)
    (d : Json) (ts tl : Int)
    (h : getItem (PREF ++ key) s.store = some (.entry (some d) ts tl))
    (hv : now - ts ≤ tl) (ht : d.truthy = true) :
    fetchWithCache key f ttlMinutes false now s = (.ok d, s) :=
  fetchWithCache_hit key f ttlMinutes now s d ts tl h hv ht

/-- Witness for C10 at a concrete valid cached entry. -/
theorem cache_hit_leaves_state_unchanged_witness :
    fetchWithCache ("k") (fun _ => .ok (Json.num 9)) 1 false 30000
        ⟨[(("sm_cache_k"), Stored.entry (some (Json.num 3)) 0 60000)], 5⟩
      = (.ok (Json.num 3),
          ⟨[(("sm_cache_k"), Stored.entry (some (Json.num 3)) 0 60000)], 5⟩) :=
  cache_hit_leaves_state_unchanged ("k") (fun _ => .ok (Json.num 9)) 1 30000
    ⟨[(("sm_cache_k"), Stored.entry (some (Json.num 3)) 0 60000)], 5⟩
    (Json.num 3) 0 60000 (by rfl) (by decide) (by decide)

/-- Claim C1 (amended): a valid cached value that is truthy is returned by a
non-forced `fetchWithCache` call without invoking the producer; and with a
producer returning a truthy `A` first, two consecutive non-forced calls
within the TTL window both return `A` with the producer invoked exactly
once. (The restriction to truthy values is forced by the source's
`if (cached) return cached;`, which treats a cached falsy value as a miss.) -/
theorem fetchWithCache_truthy_cached_no_refetch :
    (∀ (key : String) (f : Nat → Except String Json) (ttlMinutes now : Int)
        (s : FetchState) (d : Json) (ts tl : Int),
        getItem (PREF ++ key) s.store = some (.entry (some d) ts tl) →
        now - ts ≤ tl → d.truthy = true →
        fetchWithCache key f ttlMinutes false now s = (.ok d, s)) ∧
    (∀ (key : String) (f : Nat → Except String Json) (ttlMinutes t₁ t₂ : Int)
        (st : Storage) (A : Json),
        f 0 = .ok A → A.truthy = true →
        getItem (PREF ++ key) st = none →
        t₁ ≤ t₂ → t₂ - t₁ ≤ ttlMinutes * 60 * 1000 →
        (fetchWithCache key f ttlMinutes false t₁ ⟨st, 0⟩).1 = .ok A ∧
        (fetchWithCache key f ttlMinutes false t₂
            (fetchWithCache key f ttlMinutes false t₁ ⟨st, 0⟩).2).1 = .ok A ∧
        (fetchWithCache key f ttlMinutes false t₂
            (fetchWithCache key f ttlMinutes false t₁ ⟨st, 0⟩).2).2.calls = 1) := by
  constructor
  · exact fun key f ttlMinutes now s d ts tl h hv ht =>
      fetchWithCache_hit key f ttlMinutes now s d ts tl h hv ht
  · intro key f ttlMinutes t₁ t₂ st A hf hA hmiss _hle hwin
    have h₁ : fetchWithCache key f ttlMinutes false t₁ ⟨st, 0⟩
        = (.ok A, ⟨LocalCache.set key A ttlMinutes t₁ st, 1⟩) := by
      unfold fetchWithCache
      rw [get_of_missing key t₁ st hmiss]
      exact fetchAndStore_ok key f ttlMinutes t₁ st 0 A hf
    have h₂ : fetchWithCache key f ttlMinutes false t₂
        ⟨LocalCache.set key A ttlMinutes t₁ st, 1⟩
        = (.ok A, ⟨LocalCache.set key A ttlMinutes t₁ st, 1⟩) :=
      fetchWithCache_hit key f ttlMinutes t₂
        ⟨LocalCache.set key A ttlMinutes t₁ st, 1⟩ A t₁ (ttlMinutes * 60 * 1000)
        (getItem_setItem_self _ _ _) (by omega) hA
    rw [h₁]
    exact ⟨rfl, by rw [h₂], by rw [h₂]⟩

/-- Counterexample to C1 as stated: the key holds the valid cached value `0`
(falsy), yet the non-forced call invokes the producer (call count becomes 1)
and returns the producer's `7` instead of the cached `0`. -/
theorem fetchWithCache_falsy_cached_invokes_producer :
    (fetchWithCache ("k") (fun _ => .ok (Json.num 7)) 1 false 0
        ⟨[(("sm_cache_k"), Stored.entry (some (Json.num 0)) 0 60000)], 0⟩).1
      = .ok (Json.num 7) ∧
    (fetchWithCache ("k") (fun _ => .ok (Json.num 7)) 1 false 0
        ⟨[(("sm_cache_k"), Stored.entry (some (Json.num 0)) 0 60000)], 0⟩).2.calls
      = 1 :=
  ⟨rfl, rfl⟩

/-- Witness for C1 (amended): producer yields `7` then `8`; two consecutive
non-forced calls 1000 ms apart (TTL one minute) both return `7` with exactly
one producer invocation. -/
theorem fetchWithCache_truthy_cached_no_refetch_witness :
    (fetchWithCache ("k") (fun n => if n = 0 then .ok (Json.num 7) else .ok (Json.num 8))
        1 false 0 ⟨[], 0⟩).1 = .ok (Json.num 7) ∧
    (fetchWithCache ("k") (fun n => if n = 0 then .ok (Json.num 7) else .ok (Json.num 8))
        1 false 1000
        (fetchWithCache ("k")
          (fun n => if n = 0 then .ok (Json.num 7) else .ok (Json.num 8))
          1 false 0 ⟨[], 0⟩).2).1 = .ok (Json.num 7) ∧
    (fetchWithCache ("k") (fun n => if n = 0 then .ok (Json.num 7) else .ok (Json.num 8))
        1 false 1000
        (fetchWithCache ("k")
          (fun n => if n = 0 then .ok (Json.num 7) else .ok (Json.num 8))
          1 false 0 ⟨[], 0⟩).2).2.calls = 1 :=
  fetchWithCache_truthy_cached_no_refetch.2 ("k")
    (fun n => if n = 0 then .ok (Json.num 7) else .ok (Json.num 8))
    1 0 1000 [] (Json.num 7) (by rfl) (by decide) (by rfl) (by decide) (by decide)

/-- Claim C5 (amended): a forced call always invokes the producer, stores the
result under the key with the given TTL and returns it, regardless of any
existing entry; a subsequent non-forced call within the TTL window returns
the newly stored value provided that value is truthy (a falsy stored value
is treated as a miss by `if (cached)`). -/
theorem forceRefresh_stores_and_returns (key : String)
    (f g : Nat → Except String Json) (ttlMinutes now now₂ : Int)
    (s : FetchState) (B : Json) (hf : f s.calls = .ok B) :
    fetchWithCache key f ttlMinutes true now s
      = (.ok B, ⟨LocalCache.set key B ttlMinutes now s.store, s.calls + 1⟩) ∧
    (B.truthy = true → now₂ - now ≤ ttlMinutes * 60 * 1000 →
      fetchWithCache key g ttlMinutes false now₂
          ⟨LocalCache.set key B ttlMinutes now s.store, s.calls + 1⟩
        = (.ok B, ⟨LocalCache.set key B ttlMinutes now s.store, s.calls + 1⟩)) := by
  constructor
  · unfold fetchWithCache
    simp only [if_true]
    exact fetchAndStore_ok key f ttlMinutes now s.store s.calls B hf
  · intro hB hwin
    exact fetchWithCache_hit key g ttlMinutes now₂
      ⟨LocalCache.set key B ttlMinutes now s.store, s.calls + 1⟩ B now
      (ttlMinutes * 60 * 1000) (getItem_setItem_self _ _ _) (by omega) hB

/-- Counterexample to C5 as stated: a forced call stores the falsy value `0`
over a previously cached `1`, but the subsequent non-forced call within the
TTL window does not return the newly stored `0` — it invokes the producer
again and returns `7`. -/
theorem forceRefresh_falsy_result_not_served :
    fetchWithCache ("k") (fun _ => .ok (Json.num 0)) 1 true 0
        ⟨[(("sm_cache_k"), Stored.entry (some (Json.num 1)) 0 60000)], 0⟩
      = (.ok (Json.num 0),
          ⟨[(("sm_cache_k"), Stored.entry (some (Json.num 0)) 0 60000)], 1⟩) ∧
    (fetchWithCache ("k") (fun _ => .ok (Json.num 7)) 1 false 1000
        ⟨[(("sm_cache_k"), Stored.entry (some (Json.num 0)) 0 60000)], 1⟩).1
      = .ok (Json.num 7) :=
  ⟨rfl, rfl⟩

/-- Witness for C5 (amended): prior cached `1`; the forced call stores and
returns `5`; the subsequent non-forced call 1000 ms later returns `5` without
touching the producer `g`. -/
theorem forceRefresh_stores_and_returns_witness :
    fetchWithCache ("k") (fun _ => .ok (Json.num 5)) 1 true 0
        ⟨[(("sm_cache_k"), Stored.entry (some (Json.num 1)) 0 60000)], 0⟩
      = (.ok (Json.num 5),
          ⟨LocalCache.set ("k") (Json.num 5) 1 0
              [(("sm_cache_k"), Stored.entry (some (Json.num 1)) 0 60000)], 1⟩) ∧
    fetchWithCache ("k") (fun _ => .ok (Json.num 9)) 1 false 1000
        ⟨LocalCache.set ("k") (Json.num 5) 1 0
            [(("sm_cache_k"), Stored.entry (some (Json.num 1)) 0 60000)], 1⟩
      = (.ok (Json.num 5),
          ⟨LocalCache.set ("k") (Json.num 5) 1 0
              [(("sm_cache_k"), Stored.entry (some (Json.num 1)) 0 60000)], 1⟩) :=
  ⟨(forceRefresh_stores_and_returns ("k") (fun _ => .ok (Json.num 5))
      (fun _ => .ok (Json.num 9)) 1 0 1000
      ⟨[(("sm_cache_k"), Stored.entry (some (Json.num 1)) 0 60000)], 0⟩
      (Json.num 5) (by rfl)).1,
   (forceRefresh_stores_and_returns ("k") (fun _ => .ok (Json.num 5))
      (fun _ => .ok (Json.num 9)) 1 0 1000
      ⟨[(("sm_cache_k"), Stored.entry (some (Json.num 1)) 0 60000)], 0⟩
      (Json.num 5) (by rfl)).2 (by decide) (by decide)⟩

/-- Frame of a lookup: other keys are untouched; the looked-up key either
keeps its record or loses it (lazy expiry). -/
theorem after_lookup_frame (key : String) (now : Int) (st : Storage) :
    (∀ k₀, k₀ ≠ PREF ++ key →
      getItem k₀ (LocalCache.get key now st).2 = getItem k₀ st) ∧
    (getItem (PREF ++ key) (LocalCache.get key now st).2
        = getItem (PREF ++ key) st ∨
      getItem (PREF ++ key) (LocalCache.get key now st).2 = none) := by
  rcases get_snd_cases key now st with h | h <;> rw [h]
  · exact ⟨fun _ _ => rfl, Or.inl rfl⟩
  · refine ⟨fun k₀ hk => ?_, Or.inr ?_⟩
    · rw [getItem_removeItem, if_neg hk]
    · rw [getItem_removeItem, if_pos rfl]

/-- A forced call is exactly fetch-then-store on the untouched storage. -/
theorem fetchWithCache_forced (key : String) (f : Nat → Except String Json)
    (ttlMinutes now : Int) (s : FetchState) :
    fetchWithCache key f ttlMinutes true now s
      = fetchAndStore key f ttlMinutes now s.store s.calls := by
  unfold fetchWithCache
  simp

/-- A non-forced call that does not hit the cache is fetch-then-store on the
post-lookup storage. -/
theorem fetchWithCache_miss (key : String) (f : Nat → Except String Json)
    (ttlMinutes now : Int) (s : FetchState)
    (hm : cacheHit key now s.store = false) :
    fetchWithCache key f ttlMinutes false now s
      = fetchAndStore key f ttlMinutes now (LocalCache.get key now s.store).2
          s.calls := by
  unfold fetchWithCache cacheHit at *
  rcases hget : LocalCache.get key now s.store with ⟨c, st₁⟩
  rw [hget] at hm
  cases c with
  | none => rfl
  | some v =>
      have hv : v.truthy = false := by simpa using hm
      simp [hv]

/-- Claim C4 (amended): when the producer is actually invoked (forced call,
or no usable cached value) and throws, the error propagates unchanged to the
caller — not caught, not retried (exactly one invocation) — and no cache
entry is written; every other key's record is untouched, and the record
under the key is either exactly what it was before the call or has been
removed by the non-forced lookup's lazy expiry of an already-expired entry. -/
theorem producer_error_propagates (key : String) (f : Nat → Except String Json)
    (ttlMinutes now : Int) (force : Bool) (s : FetchState) (e : String)
    (hf : f s.calls = .error e)
    (hinvoked : force = true ∨ cacheHit key now s.store = false) :
    (fetchWithCache key f ttlMinutes force now s).1 = .error e ∧
    (fetchWithCache key f ttlMinutes force now s).2.calls = s.calls + 1 ∧
    (∀ k₀, k₀ ≠ PREF ++ key →
      getItem k₀ (fetchWithCache key f ttlMinutes force now s).2.store
        = getItem k₀ s.store) ∧
    (getItem (PREF ++ key) (fetchWithCache key f ttlMinutes force now s).2.store
        = getItem (PREF ++ key) s.store ∨
      getItem (PREF ++ key) (fetchWithCache key f ttlMinutes force now s).2.store
        = none) := by
  cases force with
  | true =>
      rw [fetchWithCache_forced key f ttlMinutes now s,
        fetchAndStore_error key f ttlMinutes now s.store s.calls e hf]
      exact ⟨rfl, rfl, fun _ _ => rfl, Or.inl rfl⟩
  | false =>
      have hm : cacheHit key now s.store = false := by
        rcases hinvoked with h | h
        · exact absurd h (by simp)
        · exact h
      rw [fetchWithCache_miss key f ttlMinutes now s hm,
        fetchAndStore_error key f ttlMinutes now _ s.calls e hf]
      have frame := after_lookup_frame key now s.store
      exact ⟨rfl, rfl, frame.1, frame.2⟩

/-- Counterexample to C4 as stated: the key holds an entry that is already
expired at call time; the producer throws, no entry is written — yet the
stored state for the key is not "exactly what it was before the call": the
expired record has been removed by the lookup. -/
theorem producer_error_expired_entry_removed :
    (fetchWithCache ("k") (fun _ => .error ("boom")) 1 false 70000
        ⟨[(("sm_cache_k"), Stored.entry (some (Json.num 1)) 0 60000)], 0⟩).1
      = .error ("boom") ∧
    (fetchWithCache ("k") (fun _ => .error ("boom")) 1 false 70000
        ⟨[(("sm_cache_k"), Stored.entry (some (Json.num 1)) 0 60000)], 0⟩).2.store
      = [] ∧
    getItem ("sm_cache_k")
        [(("sm_cache_k"), Stored.entry (some (Json.num 1)) 0 60000)]
      = some (Stored.entry (some (Json.num 1)) 0 60000) :=
  ⟨rfl, rfl, rfl⟩

/-- Witness for C4 (amended) at a concrete failing producer and expired
entry. -/
theorem producer_error_propagates_witness :
    (fetchWithCache ("k") (fun _ => .error ("boom")) 1 false 70000
        ⟨[(("sm_cache_k"), Stored.entry (some (Json.num 1)) 0 60000)], 0⟩).1
      = .error ("boom") ∧
    (fetchWithCache ("k") (fun _ => .error ("boom")) 1 false 70000
        ⟨[(("sm_cache_k"), Stored.entry (some (Json.num 1)) 0 60000)], 0⟩).2.calls
      = 1 :=
  ⟨(producer_error_propagates ("k") (fun _ => .error ("boom")) 1 70000 false
      ⟨[(("sm_cache_k"), Stored.entry (some (Json.num 1)) 0 60000)], 0⟩
      ("boom") (by rfl) (Or.inr (by rfl))).1,
   (producer_error_propagates ("k") (fun _ => .error ("boom")) 1 70000 false
      ⟨[(("sm_cache_k"), Stored.entry (some (Json.num 1)) 0 60000)], 0⟩
      ("boom") (by rfl) (Or.inr (by rfl))).2.1⟩

/-- Characterization of the `getStats` loop as three `countP`s over the
storage. -/
theorem getStats_foldl (now : Int) (st : Storage) (acc : CacheStats) :
    st.foldl
        (fun acc e =>
          if startsWith e.1 PREF then
            { total := acc.total + 1,
              valid := acc.valid + (if (statsClass now e.2).1 then 1 else 0),
              expired := acc.expired + (if (statsClass now e.2).2 then 1 else 0) }
          else acc)
        acc
      = ⟨acc.total + st.countP (fun e => startsWith e.1 PREF),
         acc.valid + st.countP (fun e => startsWith e.1 PREF && (statsClass now e.2).1),
         acc.expired + st.countP (fun e => startsWith e.1 PREF && (statsClass now e.2).2)⟩ := by
  induction st generalizing acc with
  | nil => simp
  | cons e rest ih =>
      simp only [List.foldl_cons, List.countP_cons]
      by_cases hp : startsWith e.1 PREF
      · rw [if_pos hp, ih]
        cases h₁ : (statsClass now e.2).1 <;> cases h₂ : (statsClass now e.2).2 <;>
          simp [hp, h₁, h₂, CacheStats.mk.injEq] <;> omega
      · rw [if_neg hp, ih]
        simp [hp, CacheStats.mk.injEq]

theorem getStats_eq_counts (now : Int) (st : Storage) :
    LocalCache.getStats now st
      = ⟨st.countP (fun e => startsWith e.1 PREF),
         st.countP (fun e => startsWith e.1 PREF && (statsClass now e.2).1),
         st.countP (fun e => startsWith e.1 PREF && (statsClass now e.2).2)⟩ := by
  unfold LocalCache.getStats
  rw [getStats_foldl now st ⟨0, 0, 0⟩]
  simp

/-- Each prefixed record contributes to exactly one of: valid, expired, or
skipped (the empty string). -/
theorem countP_stats_partition (now : Int) (st : Storage) :
    st.countP (fun e => startsWith e.1 PREF)
      = st.countP (fun e => startsWith e.1 PREF && (statsClass now e.2).1)
        + st.countP (fun e => startsWith e.1 PREF && (statsClass now e.2).2)
        + st.countP (fun e => startsWith e.1 PREF && isEmptyRec e.2) := by
  induction st with
  | nil => simp
  | cons e rest ih =>
      obtain ⟨k, r⟩ := e
      simp only [List.countP_cons]
      by_cases hp : startsWith k PREF
      · cases r with
        | entry d ts tl =>
            by_cases hv : now - ts ≤ tl <;>
              simp [hp, statsClass, isEmptyRec, hv, ih] <;> omega
        | badTimes d => simp [hp, statsClass, isEmptyRec, ih]; omega
        | badJson => simp [hp, statsClass, isEmptyRec, ih]; omega
        | empty => simp [hp, statsClass, isEmptyRec, ih]; omega
      · simp [hp, ih]

/-- Claim C9 (amended): `total` is the number of entries under the namespace
prefix; `valid` counts exactly the prefixed well-formed entries with
`now - timestamp ≤ ttl` at the moment of the call; and
`total = valid + expired + (number of prefixed entries whose stored string is
empty)` — the empty-string records are counted in `total` but in neither
class, so `total = valid + expired` only when no such record exists. -/
theorem getStats_partition (now : Int) (st : Storage) :
    (LocalCache.getStats now st).total = st.countP (fun e => startsWith e.1 PREF) ∧
    (LocalCache.getStats now st).valid
      = st.countP (fun e => startsWith e.1 PREF && (statsClass now e.2).1) ∧
    (LocalCache.getStats now st).total
      = (LocalCache.getStats now st).valid + (LocalCache.getStats now st).expired
        + st.countP (fun e => startsWith e.1 PREF && isEmptyRec e.2) := by
  rw [getStats_eq_counts]
  exact ⟨rfl, rfl, countP_stats_partition now st⟩

/-- Counterexample to C9 as stated: a single namespaced entry holding the
empty string gives `total = 1` but `valid = expired = 0`, so
`total ≠ valid + expired`. -/
theorem getStats_empty_record_breaks_partition :
    (LocalCache.getStats 0 [(("sm_cache_x"), Stored.empty)]).total
      ≠ (LocalCache.getStats 0 [(("sm_cache_x"), Stored.empty)]).valid
        + (LocalCache.getStats 0 [(("sm_cache_x"), Stored.empty)]).expired := by
  decide

/-- Claim C6 (amended): a stored record under a namespaced key that is not a
well-formed entry is never classified valid by `getStats` (whose `valid`
count is exactly the prefixed records classified valid); `get` is total (it
never throws) and on an unparseable record — the `JSON.parse` throw case —
returns absent with storage unchanged, the record being counted as expired
by `getStats` when non-empty and skipped when it is the empty string. A
record that parses but lacks numeric `timestamp`/`ttl` fields is counted as
expired, but `get` returns its `data` field rather than absent. -/
theorem malformed_record_not_valid (key : String) (now : Int) (st : Storage)
    (r : Stored) (h : getItem (PREF ++ key) st = some r)
    (hm : isMalformed r = true) :
    (statsClass now r).1 = false ∧
    (LocalCache.getStats now st).valid
      = st.countP (fun e => startsWith e.1 PREF && (statsClass now e.2).1) ∧
    (r = .badJson ∨ r = .empty → LocalCache.get key now st = (none, st)) ∧
    (r = .badJson → (statsClass now r).2 = true) := by
  refine ⟨?_, (getStats_eq_counts now st ▸ rfl), ?_, ?_⟩
  · cases r with
    | entry d ts tl => simp [isMalformed] at hm
    | badTimes d => rfl
    | badJson => rfl
    | empty => rfl
  · rintro (rfl | rfl) <;> simp [LocalCache.get, h]
  · rintro rfl; rfl

/-- Counterexample to C6 as stated: a namespaced record that parses as JSON
but has no numeric `timestamp`/`ttl` and carries `data: 5` makes `get`
return `5`, not absent. -/
theorem malformed_record_get_returns_data :
    (LocalCache.get ("w") 0
        [(("sm_cache_w"), Stored.badTimes (some (Json.num 5)))]).1
      = some (Json.num 5) ∧
    some (Json.num 5) ≠ (none : Option Json) :=
  ⟨rfl, fun hc => Option.noConfusion hc⟩

/-- Witness for C6 (amended) at a concrete unparseable record. -/
theorem malformed_record_not_valid_witness :
    (statsClass 0 Stored.badJson).1 = false ∧
    LocalCache.get ("j") 0 [(("sm_cache_j"), Stored.badJson)]
      = (none, [(("sm_cache_j"), Stored.badJson)]) ∧
    (statsClass 0 Stored.badJson).2 = true :=
  ⟨(malformed_record_not_valid ("j") 0 [(("sm_cache_j"), Stored.badJson)]
      Stored.badJson (by rfl) (by rfl)).1,
   (malformed_record_not_valid ("j") 0 [(("sm_cache_j"), Stored.badJson)]
      Stored.badJson (by rfl) (by rfl)).2.2.1 (Or.inl rfl),
   (malformed_record_not_valid ("j") 0 [(("sm_cache_j"), Stored.badJson)]
      Stored.badJson (by rfl) (by rfl)).2.2.2 rfl⟩

/-- Removing a list of keys one by one erases exactly those keys. -/
theorem getItem_foldl_removeItem (keys : List String) (st : Storage) (k : String) :
    getItem k (keys.foldl (fun acc kk => removeItem kk acc) st)
      = if k ∈ keys then none else getItem k st := by
  induction keys generalizing st with
  | nil => simp
  | cons k₀ rest ih =>
      simp only [List.foldl_cons]
      rw [ih, getItem_removeItem]
      by_cases hk : k ∈ rest
      · simp [hk]
      · by_cases he : k = k₀ <;> simp [hk, he, List.mem_cons]

/-- A present, prefixed key is collected by the `clearAll` loop. -/
theorem mem_keysToRemove (st : Storage) (k : String) (v : Stored)
    (h : getItem k st = some v) (hp : startsWith k PREF = true) :
    k ∈ keysToRemove st := by
  induction st with
  | nil => simp [getItem] at h
  | cons e rest ih =>
      obtain ⟨k₁, v₁⟩ := e
      rw [getItem] at h
      by_cases h₁ : k₁ = k
      · subst h₁
        simp [keysToRemove, List.filter_cons, hp]
      · rw [if_neg h₁] at h
        have := ih h
        simp only [keysToRemove, List.filter_cons] at this ⊢
        by_cases hp₁ : startsWith k₁ PREF <;> simp [hp₁, this]

/-- Everything the `clearAll` loop collects carries the namespace prefix. -/
theorem keysToRemove_prefixed (st : Storage) (k : String)
    (hk : k ∈ keysToRemove st) : startsWith k PREF = true := by
  simp only [keysToRemove, List.mem_map, List.mem_filter] at hk
  obtain ⟨e, ⟨_, hp⟩, he⟩ := hk
  rw [← he]
  exact hp

/-- Claim C7: `clearAll` removes exactly the storage entries whose keys carry
the cache's namespace prefix — afterwards no prefixed entry remains, every
non-prefixed entry is unchanged — and the reported count is the number of
prefixed entries. -/
theorem clearAll_spec (st : Storage) :
    (∀ k, startsWith k PREF = true → getItem k (LocalCache.clearAll st).1 = none) ∧
    (∀ k, startsWith k PREF = false →
      getItem k (LocalCache.clearAll st).1 = getItem k st) ∧
    (LocalCache.clearAll st).2
      = (st.filter (fun e => startsWith e.1 PREF)).length := by
  refine ⟨fun k hp => ?_, fun k hp => ?_, ?_⟩
  · unfold LocalCache.clearAll
    rw [getItem_foldl_removeItem]
    by_cases hk : k ∈ keysToRemove st
    · simp [hk]
    · rw [if_neg hk]
      cases hg : getItem k st with
      | none => rfl
      | some v => exact absurd (mem_keysToRemove st k v hg hp) hk
  · unfold LocalCache.clearAll
    rw [getItem_foldl_removeItem, if_neg fun hk => by
      rw [keysToRemove_prefixed st k hk] at hp
      exact Bool.noConfusion hp]
  · unfold LocalCache.clearAll keysToRemove
    simp

/-- Witness for C7 on a concrete two-entry storage with one namespaced and
one unrelated entry. -/
theorem clearAll_spec_witness :
    getItem ("sm_cache_a")
        (LocalCache.clearAll
          [(("sm_cache_a"), Stored.badJson), (("other"), Stored.badJson)]).1
      = none ∧
    getItem ("other")
        (LocalCache.clearAll
          [(("sm_cache_a"), Stored.badJson), (("other"), Stored.badJson)]).1
      = getItem ("other")
          [(("sm_cache_a"), Stored.badJson), (("other"), Stored.badJson)] ∧
    (LocalCache.clearAll
        [(("sm_cache_a"), Stored.badJson), (("other"), Stored.badJson)]).2 = 1 :=
  ⟨(clearAll_spec [(("sm_cache_a"), Stored.badJson), (("other"), Stored.badJson)]).1
      ("sm_cache_a") (by decide),
   (clearAll_spec [(("sm_cache_a"), Stored.badJson), (("other"), Stored.badJson)]).2.1
      ("other") (by decide),
   (clearAll_spec [(("sm_cache_a"), Stored.badJson), (("other"), Stored.badJson)]).2.2.trans
      (by decide)⟩

/-- Digit characters are distinct for distinct digits. -/
theorem digitChar_injective :
    ∀ a < 10, ∀ b < 10, digitChar a = digitChar b → a = b := by decide

theorem pad2_injective (m n : Nat) (hm : m < 100) (hn : n < 100)
    (h : pad2 m = pad2 n) : m = n := by
  simp only [pad2, List.cons.injEq, and_true] at h
  obtain ⟨h₁, h₂⟩ := h
  have e₁ := digitChar_injective (m / 10) (by omega) (n / 10) (by omega) h₁
  have e₂ := digitChar_injective (m % 10) (by omega) (n % 10) (by omega) h₂
  omega

theorem pad4_injective (m n : Nat) (hm : m < 10000) (hn : n < 10000)
    (h : pad4 m = pad4 n) : m = n := by
  simp only [pad4, List.cons.injEq, and_true] at h
  obtain ⟨h₁, h₂, h₃, h₄⟩ := h
  have e₁ := digitChar_injective (m / 1000) (by omega) (n / 1000) (by omega) h₁
  have e₂ := digitChar_injective (m / 100 % 10) (by omega) (n / 100 % 10) (by omega) h₂
  have e₃ := digitChar_injective (m / 10 % 10) (by omega) (n / 10 % 10) (by omega) h₃
  have e₄ := digitChar_injective (m % 10) (by omega) (n % 10) (by omega) h₄
  omega

theorem isoDateString_injective (d₁ d₂ : CalDate)
    (hy₁ : d₁.year < 10000) (hy₂ : d₂.year < 10000)
    (hm₁ : d₁.month < 100) (hm₂ : d₂.month < 100)
    (hd₁ : d₁.day < 100) (hd₂ : d₂.day < 100)
    (h : (isoDateString d₁).data = (isoDateString d₂).data) : d₁ = d₂ := by
  obtain ⟨y₁, m₁, a₁⟩ := d₁
  obtain ⟨y₂, m₂, a₂⟩ := d₂
  simp only [isoDateString] at h
  simp only [pad4, pad2, List.cons_append, List.nil_append, List.cons.injEq,
    and_true] at h
  obtain ⟨u₁, u₂, u₃, u₄, _, v₁, v₂, _, w₁, w₂⟩ := h
  simp only [CalDate.mk.injEq]
  exact ⟨pad4_injective y₁ y₂ hy₁ hy₂ (by simp [pad4, u₁, u₂, u₃, u₄]),
    pad2_injective m₁ m₂ hm₁ hm₂ (by simp [pad2, v₁, v₂]),
    pad2_injective a₁ a₂ hd₁ hd₂ (by simp [pad2, w₁, w₂])⟩

theorem data_append (a b : String) : (a ++ b).data = a.data ++ b.data := by
  cases a
  cases b
  rfl

/-- Claim C8: the daily cache key computed by `fetchYieldCurve` embeds the
calendar date, so the keys of two calls made on different calendar days
differ — even when the calls are less than one TTL period
(`CACHE_CONFIG.TREASURY_YIELDS.ttl` minutes) apart — making day-boundary
invalidation independent of the TTL clock (the key depends on nothing but
the date). -/
theorem treasuryDailyKey_distinct_days (d₁ d₂ : CalDate)
    (hy₁ : d₁.year < 10000) (hy₂ : d₂.year < 10000)
    (hm₁ : d₁.month < 100) (hm₂ : d₂.month < 100)
    (hd₁ : d₁.day < 100) (hd₂ : d₂.day < 100)
    (t₁ t₂ : Int) (_hwin : t₂ - t₁ ≤ TREASURY_YIELDS_ttl * 60 * 1000)
    (hne : d₁ ≠ d₂) :
    treasuryDailyKey d₁ ≠ treasuryDailyKey d₂ := by
  intro h
  apply hne
  apply isoDateString_injective d₁ d₂ hy₁ hy₂ hm₁ hm₂ hd₁ hd₂
  have hd := congrArg String.data h
  simp only [treasuryDailyKey, data_append] at hd
  exact List.append_cancel_left hd

/-- Witness for C8: consecutive calendar days, calls ten minutes apart. -/
theorem treasuryDailyKey_distinct_days_witness :
    treasuryDailyKey ⟨2026, 10, 11⟩ ≠ treasuryDailyKey ⟨2026, 10, 12⟩ :=
  treasuryDailyKey_distinct_days ⟨2026, 10, 11⟩ ⟨2026, 10, 12⟩
    (by decide) (by decide) (by decide) (by decide) (by decide) (by decide)
    0 600000 (by decide) (by decide)
